import Mathlib

/-
  Verification of ci/s3test.c: a smoke test that checks a path is absent,
  creates the file, checks it is present, unlinks it, and checks it is
  absent again, aborting on the first inconsistency.

  The embedding models the filesystem as an association list from
  directory paths to their entry lists (first binding wins, as in a real
  filesystem where directory names are unique).  Strings are lists of
  characters so that byte-level operations (strrchr, strcmp) are explicit.
  Undefined behaviour in the C source (readdir on a NULL handle when
  opendir fails, strrchr returning NULL when the path has no slash) is
  modelled by dedicated crash results.
-/

set_option autoImplicit false

namespace S3Test

/-- C strings, byte-for-byte, as lists of characters. -/
abbrev Str := List Char

/-- The errno value ENOENT (2 on Linux), used by `lookup_file` as its
not-found presence code. -/
def ENOENT : Nat := 2

/-- strerror(ENOENT) as printed by perror. -/
def strerrENOENT : Str := "No such file or directory".toList

/-- The modelled filesystem: directory path (spelled exactly as the
program passes it to opendir, trailing slash included) mapped to the list
of entry names in that directory, in enumeration order. -/
abbrev FS := List (Str × List Str)

/-- opendir: find the entry list of a directory; `none` models opendir
returning NULL (directory missing). First binding wins. -/
def findDir : FS → Str → Option (List Str)
  | [], _ => none
  | (k, v) :: rest, d => if k = d then some v else findDir rest d

/-- Replace the entry list of the first binding of directory `d`. -/
def setDir : FS → Str → List Str → FS
  | [], _, _ => []
  | (k, v) :: rest, d, ents =>
    if k = d then (k, ents) :: rest else (k, v) :: setDir rest d ents

/-- Remove the first occurrence of an entry name, as unlink removes the
single directory entry of that name. -/
def removeFirst : List Str → Str → List Str
  | [], _ => []
  | e :: rest, n => if e = n then rest else e :: removeFirst rest n

/-- `fname = strrchr(file_path, '/') + 1`: the suffix of the path after
its last slash. -/
def fnameOf (p : Str) : Str :=
  (p.reverse.takeWhile (fun c => c ≠ '/')).reverse

/-- `basedir = strndup(file_path, fname - file_path)`: the prefix of the
path up to and including its last slash. -/
def basedirOf (p : Str) : Str :=
  (p.reverse.dropWhile (fun c => c ≠ '/')).reverse

/-- The readdir/strcmp loop of lookup_file: scan the entries in
enumeration order, return 0 at the first byte-identical match, ENOENT
after exhausting the list. -/
def scanEntries : List Str → Str → Nat
  | [], _ => ENOENT
  | e :: rest, n => if e = n then 0 else scanEntries rest n

/-- Result of one call to lookup_file.  `ok ec closed` is a normal return
with presence code `ec`; the ghost flag `closed` records whether closedir
ran on the directory handle before the return.  `nullDeref` models the
undefined behaviour of readdir(NULL) when opendir failed (the source does
not check opendir's result).  `ubNoSlash` models the undefined behaviour
of strrchr returning NULL when the path has no slash. -/
inductive LookupRes where
  | ok (ec : Nat) (handleClosed : Bool)
  | nullDeref
  | ubNoSlash
deriving DecidableEq

/-- lookup_file from s3test.c: split the path at its last slash, opendir
the parent, scan its entries for an exact byte-equality match, always
closedir before a normal return. -/
def lookup_file (fs : FS) (p : Str) : LookupRes :=
  if '/' ∈ p then
    match findDir fs (basedirOf p) with
    | none => .nullDeref
    | some ents => .ok (scanEntries ents (fnameOf p)) true
  else .ubNoSlash

/-- open(path, O_RDWR | O_CREAT) against the modelled filesystem: fails
when the parent directory is missing; succeeds without duplicating the
entry when the file already exists; otherwise appends the new name to the
parent's entry list. -/
def createFile (fs : FS) (p : Str) : Option FS :=
  match findDir fs (basedirOf p) with
  | none => none
  | some ents =>
    some (if fnameOf p ∈ ents then fs
          else setDir fs (basedirOf p) (ents ++ [fnameOf p]))

/-- unlink(path) against the modelled filesystem: fails when the parent
is missing or the entry is absent; otherwise removes the entry. -/
def unlinkFile (fs : FS) (p : Str) : Option FS :=
  match findDir fs (basedirOf p) with
  | none => none
  | some ents =>
    if fnameOf p ∈ ents then
      some (setDir fs (basedirOf p) (removeFirst ents (fnameOf p)))
    else none

/-- Injectable OS-level failures: when a field is `some e`, the
corresponding system call fails and perror would print error text `e`.
This models create/delete failing for any OS-level reason (permission,
I/O error, ...) beyond what the filesystem model itself can express. -/
structure Env where
  openErr : Option Str
  unlinkErr : Option Str
deriving DecidableEq

/-- The open call as checked by `eh("open", ...)`: an injected failure or
a model-level failure yields the OS error text, otherwise the new
filesystem. -/
def osOpen (env : Env) (fs : FS) (p : Str) : Except Str FS :=
  match env.openErr with
  | some e => .error e
  | none =>
    match createFile fs p with
    | some fs' => .ok fs'
    | none => .error strerrENOENT

/-- The unlink call as checked by `eh("unlink", ...)`. -/
def osUnlink (env : Env) (fs : FS) (p : Str) : Except Str FS :=
  match env.unlinkErr with
  | some e => .error e
  | none =>
    match unlinkFile fs p with
    | some fs' => .ok fs'
    | none => .error strerrENOENT

/-- How the process terminated: exit(n) / return n, abort() from a failed
assert (non-zero status via SIGABRT), or a crash from modelled undefined
behaviour (also a non-zero status). -/
inductive Exit where
  | code (n : Nat)
  | abortSig
  | segv
deriving DecidableEq

/-- Observable outcome of one run: final filesystem, termination status,
and the lines written to standard error. -/
structure RunResult where
  fs : FS
  exit : Exit
  stderr : List Str
deriving DecidableEq

/-- The line perror(msg) writes: `msg ++ ": " ++ strerror(errno)`. -/
def perrorLine (op : Str) (e : Str) : Str := op ++ ": ".toList ++ e

/-- Operation name passed to eh for the create step. -/
def opOpen : Str := "open".toList

/-- Operation name passed to eh for the delete step. -/
def opUnlink : Str := "unlink".toList

/-- Diagnostic printed by the failing first assert. -/
def assertMsg1 : Str :=
  "Assertion failed: lookup_file(argv[1]) == ENOENT".toList

/-- Diagnostic printed by the failing second assert. -/
def assertMsg2 : Str :=
  "Assertion failed: lookup_file(argv[1]) == 0".toList

/-- Diagnostic printed by the failing third assert. -/
def assertMsg3 : Str :=
  "Assertion failed: lookup_file(argv[1]) == ENOENT".toList

/-- One `assert(lookup_file(argv[1]) == want)` statement: run the lookup,
abort (printing `msg`) when the presence code differs from `want`, crash
on modelled undefined behaviour, otherwise continue with the filesystem
unchanged. -/
def checkpoint (fs : FS) (p : Str) (want : Nat) (msg : Str)
    (k : FS → RunResult) : RunResult :=
  match lookup_file fs p with
  | .nullDeref => ⟨fs, .segv, []⟩
  | .ubNoSlash => ⟨fs, .segv, []⟩
  | .ok ec _ => if ec = want then k fs else ⟨fs, .abortSig, [msg]⟩

/-- One `eh(op, call)` wrapper: on failure print `op ++ ": " ++ errtext`
and exit(1); on success continue with the call's resulting filesystem. -/
def ehStep (op : Str) (fs : FS) (r : Except Str FS)
    (k : FS → RunResult) : RunResult :=
  match r with
  | .error e => ⟨fs, .code 1, [perrorLine op e]⟩
  | .ok fs' => k fs'

/-- main from s3test.c, given the path argument: assert absent, create
(via eh), close, assert present, unlink (via eh), assert absent,
return 0.  A failed assert aborts; a failed OS call exits 1 after
perror; modelled undefined behaviour crashes. -/
def run_main (env : Env) (fs : FS) (p : Str) : RunResult :=
  checkpoint fs p ENOENT assertMsg1 (fun fs₁ =>
    ehStep opOpen fs₁ (osOpen env fs₁ p) (fun fs₂ =>
      checkpoint fs₂ p 0 assertMsg2 (fun fs₂' =>
        ehStep opUnlink fs₂' (osUnlink env fs₂' p) (fun fs₃ =>
          checkpoint fs₃ p ENOENT assertMsg3 (fun fs₃' =>
            ⟨fs₃', .code 0, []⟩)))))

/-- The process entry point: main reads argv[1] without checking argc.
With no argument, argv[1] is the terminating NULL pointer and
lookup_file dereferences it (strrchr on NULL), a crash; with at least one
argument the first one is used and the rest are ignored. -/
def main_entry (env : Env) (fs : FS) (args : List Str) : RunResult :=
  match args with
  | [] => ⟨fs, .segv, []⟩
  | p :: _ => run_main env fs p

/-- All six lifecycle steps pass: first lookup NotFound, create succeeds,
second lookup Found, unlink succeeds, third lookup NotFound. -/
def StepsPass (env : Env) (fs : FS) (p : Str) : Prop :=
  ∃ fs₂ fs₃,
    lookup_file fs p = .ok ENOENT true ∧
    osOpen env fs p = .ok fs₂ ∧
    lookup_file fs₂ p = .ok 0 true ∧
    osUnlink env fs₂ p = .ok fs₃ ∧
    lookup_file fs₃ p = .ok ENOENT true

/-- opendir as a state transformer: a read-only system call, it returns
the directory's entry snapshot and leaves the filesystem unchanged. -/
def opendirSt (fs : FS) (d : Str) : Option (List Str) × FS :=
  (findDir fs d, fs)

/-- The readdir loop as a state transformer: readdir only reads the open
handle's snapshot, the filesystem is unchanged. -/
def readdirScanSt (fs : FS) (ents : List Str) (n : Str) : Nat × FS :=
  (scanEntries ents n, fs)

/-- closedir as a state transformer: releases the handle, filesystem
unchanged. -/
def closedirSt (fs : FS) : FS := fs

/-- lookup_file with the filesystem threaded explicitly through each of
its system calls (opendir, the readdir loop, closedir), exposing which
state each call can touch. -/
def lookup_file_st (fs : FS) (p : Str) : LookupRes × FS :=
  if '/' ∈ p then
    match opendirSt fs (basedirOf p) with
    | (none, fs₁) => (.nullDeref, fs₁)
    | (some ents, fs₁) =>
      let r := readdirScanSt fs₁ ents (fnameOf p)
      (.ok r.1 true, closedirSt r.2)
  else (.ubNoSlash, fs)

/-! Basic lemmas about the scan loop, the directory map and the path
split. -/

theorem scanEntries_eq_zero_iff (l : List Str) (n : Str) :
    scanEntries l n = 0 ↔ n ∈ l := by
  induction l with
  | nil => simp [scanEntries, ENOENT]
  | cons e rest ih =>
    by_cases h : e = n
    · subst h
      simp [scanEntries]
    · rw [scanEntries, if_neg h, ih]
      constructor
      · exact fun hm => List.mem_cons_of_mem e hm
      · intro hm
        rcases List.mem_cons.mp hm with hne | hm'
        · exact absurd hne.symm h
        · exact hm'

theorem scanEntries_zero_or_enoent (l : List Str) (n : Str) :
    scanEntries l n = 0 ∨ scanEntries l n = ENOENT := by
  induction l with
  | nil => exact Or.inr rfl
  | cons e rest ih =>
    by_cases h : e = n
    · rw [scanEntries, if_pos h]; exact Or.inl rfl
    · rw [scanEntries, if_neg h]; exact ih

theorem scanEntries_eq_enoent_iff (l : List Str) (n : Str) :
    scanEntries l n = ENOENT ↔ n ∉ l := by
  constructor
  · intro h hm
    rw [(scanEntries_eq_zero_iff l n).mpr hm] at h
    exact absurd h (by decide)
  · intro hm
    rcases scanEntries_zero_or_enoent l n with h | h
    · exact absurd ((scanEntries_eq_zero_iff l n).mp h) hm
    · exact h

theorem findDir_setDir (fs : FS) (d : Str) (l e : List Str)
    (h : findDir fs d = some l) : findDir (setDir fs d e) d = some e := by
  induction fs with
  | nil => simp [findDir] at h
  | cons kv rest ih =>
    obtain ⟨k, v⟩ := kv
    by_cases hk : k = d
    · simp [findDir, setDir, hk]
    · rw [findDir, if_neg hk] at h
      rw [setDir, if_neg hk, findDir, if_neg hk]
      exact ih h

theorem setDir_setDir (fs : FS) (d : Str) (l e : List Str) :
    setDir (setDir fs d l) d e = setDir fs d e := by
  induction fs with
  | nil => rfl
  | cons kv rest ih =>
    obtain ⟨k, v⟩ := kv
    by_cases hk : k = d
    · simp [setDir, hk]
    · simp [setDir, hk, ih]

theorem setDir_findDir_eq (fs : FS) (d : Str) (e : List Str)
    (h : findDir fs d = some e) : setDir fs d e = fs := by
  induction fs with
  | nil => rfl
  | cons kv rest ih =>
    obtain ⟨k, v⟩ := kv
    by_cases hk : k = d
    · rw [findDir, if_pos hk] at h
      have hv : v = e := Option.some.inj h
      rw [setDir, if_pos hk, hv]
    · rw [findDir, if_neg hk] at h
      rw [setDir, if_neg hk, ih h]

theorem removeFirst_append_self (l : List Str) (n : Str) (h : n ∉ l) :
    removeFirst (l ++ [n]) n = l := by
  induction l with
  | nil => simp [removeFirst]
  | cons e rest ih =>
    have hne : e ≠ n := by
      rintro rfl
      exact h (List.mem_cons_self _ _)
    rw [List.cons_append, removeFirst, if_neg hne]
    rw [ih (fun hm => h (List.mem_cons_of_mem e hm))]

theorem basedir_append_fname (p : Str) : basedirOf p ++ fnameOf p = p := by
  unfold basedirOf fnameOf
  rw [← List.reverse_append, List.takeWhile_append_dropWhile,
    List.reverse_reverse]

/-! Inversion and evaluation lemmas for `lookup_file`. -/

theorem lookup_eq_ok (fs : FS) (p : Str) (ents : List Str)
    (hs : '/' ∈ p) (hfd : findDir fs (basedirOf p) = some ents) :
    lookup_file fs p = .ok (scanEntries ents (fnameOf p)) true := by
  unfold lookup_file
  rw [if_pos hs, hfd]

theorem lookup_eq_nullDeref (fs : FS) (p : Str)
    (hs : '/' ∈ p) (hfd : findDir fs (basedirOf p) = none) :
    lookup_file fs p = .nullDeref := by
  unfold lookup_file
  rw [if_pos hs, hfd]

theorem lookup_ok_inv {fs : FS} {p : Str} {ec : Nat} {b : Bool}
    (h : lookup_file fs p = .ok ec b) :
    '/' ∈ p ∧ b = true ∧
      ∃ ents, findDir fs (basedirOf p) = some ents ∧
        ec = scanEntries ents (fnameOf p) := by
  unfold lookup_file at h
  by_cases hs : '/' ∈ p
  · rw [if_pos hs] at h
    cases hfd : findDir fs (basedirOf p) with
    | none => rw [hfd] at h; simp at h
    | some ents =>
      rw [hfd] at h
      simp only [LookupRes.ok.injEq] at h
      exact ⟨hs, h.2.symm, ents, rfl, h.1.symm⟩
  · rw [if_neg hs] at h
    simp at h

/-! Evaluation lemmas for the driver's two statement shapes. -/

theorem checkpoint_pass {fs : FS} {p : Str} {want : Nat} {msg : Str}
    {k : FS → RunResult} {b : Bool}
    (h : lookup_file fs p = .ok want b) :
    checkpoint fs p want msg k = k fs := by
  unfold checkpoint
  rw [h]
  simp

theorem checkpoint_abort {fs : FS} {p : Str} {want ec : Nat} {msg : Str}
    {k : FS → RunResult} {b : Bool}
    (h : lookup_file fs p = .ok ec b) (hne : ec ≠ want) :
    checkpoint fs p want msg k = ⟨fs, .abortSig, [msg]⟩ := by
  unfold checkpoint
  rw [h]
  simp [hne]

theorem checkpoint_exit_zero_inv {fs : FS} {p : Str} {want : Nat}
    {msg : Str} {k : FS → RunResult}
    (h : (checkpoint fs p want msg k).exit = .code 0) :
    (∃ b, lookup_file fs p = .ok want b) ∧
      checkpoint fs p want msg k = k fs := by
  unfold checkpoint at h ⊢
  cases hl : lookup_file fs p with
  | nullDeref => rw [hl] at h; simp at h
  | ubNoSlash => rw [hl] at h; simp at h
  | ok ec b =>
    rw [hl] at h
    by_cases he : ec = want
    · subst he
      exact ⟨⟨b, rfl⟩, by simp⟩
    · simp [he] at h

theorem ehStep_error {op : Str} {fs : FS} {e : Str} {k : FS → RunResult} :
    ehStep op fs (.error e) k = ⟨fs, .code 1, [perrorLine op e]⟩ := rfl

theorem ehStep_ok {op : Str} {fs fs' : FS} {k : FS → RunResult} :
    ehStep op fs (.ok fs') k = k fs' := rfl

theorem ehStep_exit_zero_inv {op : Str} {fs : FS} {r : Except Str FS}
    {k : FS → RunResult}
    (h : (ehStep op fs r k).exit = .code 0) :
    ∃ fs', r = .ok fs' ∧ ehStep op fs r k = k fs' := by
  cases r with
  | error e => rw [ehStep_error] at h; simp at h
  | ok fs' => exact ⟨fs', rfl, ehStep_ok⟩

/-! Characterisation of the whole driver run. -/

theorem run_main_eq_of_steps (env : Env) (fs fs₂ fs₃ : FS) (p : Str)
    (h1 : lookup_file fs p = .ok ENOENT true)
    (h2 : osOpen env fs p = .ok fs₂)
    (h3 : lookup_file fs₂ p = .ok 0 true)
    (h4 : osUnlink env fs₂ p = .ok fs₃)
    (h5 : lookup_file fs₃ p = .ok ENOENT true) :
    run_main env fs p = ⟨fs₃, .code 0, []⟩ := by
  simp only [run_main, checkpoint_pass h1, h2, ehStep_ok,
    checkpoint_pass h3, h4, checkpoint_pass h5]

theorem run_exit_zero_iff (env : Env) (fs : FS) (p : Str) :
    (run_main env fs p).exit = .code 0 ↔ StepsPass env fs p := by
  constructor
  · intro h
    unfold run_main at h
    obtain ⟨⟨b1, hl1⟩, heq1⟩ := checkpoint_exit_zero_inv h
    rw [heq1] at h
    obtain ⟨fs₂, hr2, heq2⟩ := ehStep_exit_zero_inv h
    rw [heq2] at h
    obtain ⟨⟨b3, hl3⟩, heq3⟩ := checkpoint_exit_zero_inv h
    rw [heq3] at h
    obtain ⟨fs₃, hr4, heq4⟩ := ehStep_exit_zero_inv h
    rw [heq4] at h
    obtain ⟨⟨b5, hl5⟩, _⟩ := checkpoint_exit_zero_inv h
    have hb1 := (lookup_ok_inv hl1).2.1
    have hb3 := (lookup_ok_inv hl3).2.1
    have hb5 := (lookup_ok_inv hl5).2.1
    subst hb1; subst hb3; subst hb5
    exact ⟨fs₂, fs₃, hl1, hr2, hl3, hr4, hl5⟩
  · rintro ⟨fs₂, fs₃, h1, h2, h3, h4, h5⟩
    rw [run_main_eq_of_steps env fs fs₂ fs₃ p h1 h2 h3 h4 h5]

theorem osOpen_ok_inv {env : Env} {fs fs₂ : FS} {p : Str}
    (h : osOpen env fs p = .ok fs₂) :
    env.openErr = none ∧ createFile fs p = some fs₂ := by
  unfold osOpen at h
  cases hoe : env.openErr with
  | some e => rw [hoe] at h; simp at h
  | none =>
    rw [hoe] at h
    cases hc : createFile fs p with
    | none => rw [hc] at h; simp at h
    | some fs' =>
      rw [hc] at h
      simp only [Except.ok.injEq] at h
      exact ⟨rfl, by rw [h]⟩

theorem osUnlink_ok_inv {env : Env} {fs fs₃ : FS} {p : Str}
    (h : osUnlink env fs p = .ok fs₃) :
    env.unlinkErr = none ∧ unlinkFile fs p = some fs₃ := by
  unfold osUnlink at h
  cases hue : env.unlinkErr with
  | some e => rw [hue] at h; simp at h
  | none =>
    rw [hue] at h
    cases hu : unlinkFile fs p with
    | none => rw [hu] at h; simp at h
    | some fs' =>
      rw [hu] at h
      simp only [Except.ok.injEq] at h
      exact ⟨rfl, by rw [h]⟩

theorem lookup_file_st_eq (fs : FS) (p : Str) :
    lookup_file_st fs p = (lookup_file fs p, fs) := by
  unfold lookup_file_st lookup_file opendirSt readdirScanSt closedirSt
  by_cases hs : '/' ∈ p
  · rw [if_pos hs, if_pos hs]
    cases hfd : findDir fs (basedirOf p) with
    | none => rfl
    | some ents => rfl
  · rw [if_neg hs, if_neg hs]

/-! The claim theorems. -/

/-- C1: the driver runs the fixed sequence on the single path argument —
lookup must yield NotFound, create then close, lookup must yield Found,
unlink, lookup must yield NotFound — exiting 0 iff every step passed;
a failing assertion aborts (non-zero status) before any later step runs,
leaving the filesystem exactly as the failing checkpoint saw it. -/
theorem driver_fixed_sequence (env : Env) (fs : FS) (p : Str) :
    ((run_main env fs p).exit = .code 0 ↔ StepsPass env fs p) ∧
    (∀ ec b, lookup_file fs p = .ok ec b → ec ≠ ENOENT →
      run_main env fs p = ⟨fs, .abortSig, [assertMsg1]⟩) ∧
    (∀ fs₂ ec b, lookup_file fs p = .ok ENOENT true →
      osOpen env fs p = .ok fs₂ →
      lookup_file fs₂ p = .ok ec b → ec ≠ 0 →
      run_main env fs p = ⟨fs₂, .abortSig, [assertMsg2]⟩) ∧
    (∀ fs₂ fs₃ ec b, lookup_file fs p = .ok ENOENT true →
      osOpen env fs p = .ok fs₂ →
      lookup_file fs₂ p = .ok 0 true →
      osUnlink env fs₂ p = .ok fs₃ →
      lookup_file fs₃ p = .ok ec b → ec ≠ ENOENT →
      run_main env fs p = ⟨fs₃, .abortSig, [assertMsg3]⟩) := by
  refine ⟨run_exit_zero_iff env fs p, ?_, ?_, ?_⟩
  · intro ec b hl hne
    simp only [run_main, checkpoint_abort hl hne]
  · intro fs₂ ec b h1 h2 hl hne
    simp only [run_main, checkpoint_pass h1, h2, ehStep_ok,
      checkpoint_abort hl hne]
  · intro fs₂ fs₃ ec b h1 h2 h3 h4 hl hne
    simp only [run_main, checkpoint_pass h1, h2, ehStep_ok,
      checkpoint_pass h3, h4, checkpoint_pass h3, ehStep_ok,
      checkpoint_abort hl hne]

/-- A run on `/d/f` against a filesystem whose directory `/d/` is empty
passes, exercising C1's iff at a concrete input. -/
theorem driver_fixed_sequence_witness :
    (run_main ⟨none, none⟩ [("/d/".toList, [])] ("/d/f".toList)).exit
      = .code 0 :=
  (driver_fixed_sequence ⟨none, none⟩ [("/d/".toList, [])]
      ("/d/f".toList)).1.mpr
    ⟨[("/d/".toList, ["f".toList])], [("/d/".toList, [])],
      rfl, rfl, rfl, rfl, rfl⟩

/-- C2: with the parent directory's entries in hand, lookup reports Found
(code 0) exactly when some entry is byte-for-byte identical to the base
name, and NotFound (ENOENT) exactly otherwise — never Found for a mere
prefix, suffix, or case-variant. -/
theorem lookup_exact_match (fs : FS) (p : Str) (ents : List Str)
    (hs : '/' ∈ p) (hfd : findDir fs (basedirOf p) = some ents) :
    (lookup_file fs p = .ok 0 true ↔ fnameOf p ∈ ents) ∧
    (lookup_file fs p = .ok ENOENT true ↔ fnameOf p ∉ ents) := by
  constructor
  · rw [lookup_eq_ok fs p ents hs hfd]
    simp only [LookupRes.ok.injEq, and_true]
    exact scanEntries_eq_zero_iff ents (fnameOf p)
  · rw [lookup_eq_ok fs p ents hs hfd]
    simp only [LookupRes.ok.injEq, and_true]
    exact scanEntries_eq_enoent_iff ents (fnameOf p)

/-- A directory holding a prefix, an extension, a case-variant and a
suffix of "file" but not "file" itself: lookup reports NotFound. -/
theorem lookup_exact_match_witness :
    lookup_file
        [("/d/".toList,
          ["fil".toList, "filee".toList, "FILE".toList, "ile".toList])]
        ("/d/file".toList)
      = .ok ENOENT true :=
  (lookup_exact_match
      [("/d/".toList,
        ["fil".toList, "filee".toList, "FILE".toList, "ile".toList])]
      ("/d/file".toList)
      ["fil".toList, "filee".toList, "FILE".toList, "ile".toList]
      (by decide) rfl).2.mpr (by decide)

/-- C3 as stated is false: when opendir fails the source does not release
any handle but dereferences the invalid one.  On the empty filesystem the
parent of "/tmp/x" cannot be opened and lookup_file hits readdir(NULL)
instead of returning with the handle closed. -/
theorem lookup_handle_counterexample :
    ¬ (∀ (fs : FS) (p : Str), '/' ∈ p →
        ∃ ec, lookup_file fs p = .ok ec true) := by
  intro hclaim
  obtain ⟨ec, heq⟩ := hclaim [] ("/tmp/x".toList) (by decide)
  rw [lookup_eq_nullDeref [] ("/tmp/x".toList) (by decide) rfl] at heq
  exact LookupRes.noConfusion heq

/-- C3 amended: on every exit path of lookup_file on which opening the
parent directory succeeded, the directory handle is released (closedir
runs) before the function returns; when the open fails, the invalid
handle is dereferenced (readdir(NULL)) instead. -/
theorem lookup_handle_released (fs : FS) (p : Str) (hs : '/' ∈ p) :
    (∀ ents, findDir fs (basedirOf p) = some ents →
      lookup_file fs p = .ok (scanEntries ents (fnameOf p)) true) ∧
    (findDir fs (basedirOf p) = none → lookup_file fs p = .nullDeref) :=
  ⟨fun ents hfd => lookup_eq_ok fs p ents hs hfd,
   fun hfd => lookup_eq_nullDeref fs p hs hfd⟩

/-- The amended C3 at a concrete input: the handle-closed flag is set on
a successful lookup over an openable parent. -/
theorem lookup_handle_released_witness :
    lookup_file [("/d/".toList, [])] ("/d/f".toList) = .ok ENOENT true :=
  (lookup_handle_released [("/d/".toList, [])] ("/d/f".toList)
      (by decide)).1 [] rfl

/-- C4: a failing create prints "open: " and the OS error text to stderr
and exits 1; a failing unlink prints "unlink: " and the OS error text and
exits 1; a passing run prints nothing and exits 0. -/
theorem os_failure_diagnostics (env : Env) (fs : FS) (p : Str) :
    (∀ e, env.openErr = some e → lookup_file fs p = .ok ENOENT true →
      run_main env fs p = ⟨fs, .code 1, [perrorLine opOpen e]⟩) ∧
    (∀ e fs₂, env.openErr = none → env.unlinkErr = some e →
      lookup_file fs p = .ok ENOENT true → createFile fs p = some fs₂ →
      lookup_file fs₂ p = .ok 0 true →
      run_main env fs p = ⟨fs₂, .code 1, [perrorLine opUnlink e]⟩) ∧
    ((run_main env fs p).exit = .code 0 →
      (run_main env fs p).stderr = []) := by
  refine ⟨?_, ?_, ?_⟩
  · intro e he hl
    have ho : osOpen env fs p = .error e := by unfold osOpen; rw [he]
    simp only [run_main, checkpoint_pass hl, ho, ehStep_error]
  · intro e fs₂ hoe hue hl hc hl2
    have ho : osOpen env fs p = .ok fs₂ := by unfold osOpen; rw [hoe, hc]
    have hu : osUnlink env fs₂ p = .error e := by unfold osUnlink; rw [hue]
    simp only [run_main, checkpoint_pass hl, ho, ehStep_ok,
      checkpoint_pass hl2, hu, ehStep_error]
  · intro h
    obtain ⟨fs₂, fs₃, h1, h2, h3, h4, h5⟩ := (run_exit_zero_iff env fs p).mp h
    rw [run_main_eq_of_steps env fs fs₂ fs₃ p h1 h2 h3 h4 h5]

/-- C4 at a concrete input: with the OS failing the open call with
"Permission denied", the run exits 1 and stderr holds exactly
"open: Permission denied". -/
theorem os_failure_diagnostics_witness :
    run_main ⟨some "Permission denied".toList, none⟩
        [("/d/".toList, [])] ("/d/f".toList)
      = ⟨[("/d/".toList, [])], .code 1,
          [perrorLine opOpen "Permission denied".toList]⟩ :=
  (os_failure_diagnostics ⟨some "Permission denied".toList, none⟩
      [("/d/".toList, [])] ("/d/f".toList)).1
    ("Permission denied".toList) rfl rfl

/-- C5: when a file already exists at the target path, the first
existence check sees presence code 0, the assert fails, and the process
aborts with the filesystem untouched — no create or delete occurred. -/
theorem preexisting_file_aborts (env : Env) (fs : FS) (p : Str)
    (ents : List Str) (hs : '/' ∈ p)
    (hfd : findDir fs (basedirOf p) = some ents)
    (hmem : fnameOf p ∈ ents) :
    run_main env fs p = ⟨fs, .abortSig, [assertMsg1]⟩ := by
  have hl : lookup_file fs p = .ok 0 true := by
    rw [lookup_eq_ok fs p ents hs hfd,
      (scanEntries_eq_zero_iff ents (fnameOf p)).mpr hmem]
  simp only [run_main, checkpoint_abort hl (show (0 : Nat) ≠ ENOENT by decide)]

/-- C5 at a concrete input: "/d/f" already exists, the run aborts at
checkpoint 1 and the filesystem is returned unchanged. -/
theorem preexisting_file_aborts_witness :
    run_main ⟨none, none⟩ [("/d/".toList, ["f".toList])] ("/d/f".toList)
      = ⟨[("/d/".toList, ["f".toList])], .abortSig, [assertMsg1]⟩ :=
  preexisting_file_aborts ⟨none, none⟩
    [("/d/".toList, ["f".toList])] ("/d/f".toList) ["f".toList]
    (by decide) rfl (by decide)

/-- C6: a successful run leaves the filesystem exactly as it found it
(create then delete of the one target file, no residue), so a second run
from the resulting state also exits 0. -/
theorem success_leaves_no_residue (env : Env) (fs : FS) (p : Str)
    (h : (run_main env fs p).exit = .code 0) :
    (run_main env fs p).fs = fs ∧
    (run_main env (run_main env fs p).fs p).exit = .code 0 := by
  obtain ⟨fs₂, fs₃, h1, h2, h3, h4, h5⟩ := (run_exit_zero_iff env fs p).mp h
  have hrun := run_main_eq_of_steps env fs fs₂ fs₃ p h1 h2 h3 h4 h5
  obtain ⟨hs, _, ents, hfd, hec⟩ := lookup_ok_inv h1
  have hnm : fnameOf p ∉ ents :=
    (scanEntries_eq_enoent_iff ents (fnameOf p)).mp hec.symm
  have hcf : createFile fs p = some fs₂ := (osOpen_ok_inv h2).2
  have hfs2 : fs₂ = setDir fs (basedirOf p) (ents ++ [fnameOf p]) := by
    unfold createFile at hcf
    rw [hfd] at hcf
    simp only [Option.some.injEq] at hcf
    rw [if_neg hnm] at hcf
    exact hcf.symm
  have huf : unlinkFile fs₂ p = some fs₃ := (osUnlink_ok_inv h4).2
  have hfd2 : findDir fs₂ (basedirOf p) = some (ents ++ [fnameOf p]) := by
    rw [hfs2]
    exact findDir_setDir fs (basedirOf p) ents (ents ++ [fnameOf p]) hfd
  have hmem2 : fnameOf p ∈ ents ++ [fnameOf p] := by simp
  have hfs3 : fs₃ = fs := by
    unfold unlinkFile at huf
    rw [hfd2] at huf
    simp only [hmem2, if_pos, Option.some.injEq] at huf
    rw [removeFirst_append_self ents (fnameOf p) hnm] at huf
    rw [hfs2, setDir_setDir] at huf
    rw [setDir_findDir_eq fs (basedirOf p) ents hfd] at huf
    exact huf.symm
  constructor
  · rw [hrun]
    exact hfs3
  · rw [hrun, hfs3]
    exact h

/-- C6 at a concrete input: the passing run on "/d/f" hands back the
initial filesystem and a second run from it also exits 0. -/
theorem success_leaves_no_residue_witness :
    (run_main ⟨none, none⟩ [("/d/".toList, [])] ("/d/f".toList)).fs
        = [("/d/".toList, [])] ∧
    (run_main ⟨none, none⟩
        (run_main ⟨none, none⟩ [("/d/".toList, [])] ("/d/f".toList)).fs
        ("/d/f".toList)).exit = .code 0 :=
  success_leaves_no_residue ⟨none, none⟩ [("/d/".toList, [])]
    ("/d/f".toList) rfl

/-- C7: for every path containing a separator, the split at the last
slash is side-effect-free (a pure function of the path) and the parent
string concatenated with the base name reconstructs the input path
byte-for-byte, hence refers to the same entry. -/
theorem path_split_reconstructs (p : Str) (_hs : '/' ∈ p) :
    basedirOf p ++ fnameOf p = p :=
  basedir_append_fname p

/-- C7 at a concrete input. -/
theorem path_split_reconstructs_witness :
    '/' ∈ ("/tmp/dir/file.txt".toList) ∧
    basedirOf ("/tmp/dir/file.txt".toList)
        ++ fnameOf ("/tmp/dir/file.txt".toList)
      = "/tmp/dir/file.txt".toList :=
  ⟨by decide, path_split_reconstructs ("/tmp/dir/file.txt".toList)
    (by decide)⟩

/-- C8: whenever the parent directory can be opened, lookup_file returns
exactly one of the two presence codes — Found (0) or NotFound (ENOENT) —
and nothing else. -/
theorem lookup_two_outcomes (fs : FS) (p : Str) (ents : List Str)
    (hs : '/' ∈ p) (hfd : findDir fs (basedirOf p) = some ents) :
    lookup_file fs p = .ok 0 true ∨
    lookup_file fs p = .ok ENOENT true := by
  rcases scanEntries_zero_or_enoent ents (fnameOf p) with h | h
  · left
    rw [lookup_eq_ok fs p ents hs hfd, h]
  · right
    rw [lookup_eq_ok fs p ents hs hfd, h]

/-- C8 at a concrete input. -/
theorem lookup_two_outcomes_witness :
    lookup_file [("/d/".toList, ["g".toList])] ("/d/f".toList)
        = .ok 0 true ∨
    lookup_file [("/d/".toList, ["g".toList])] ("/d/f".toList)
        = .ok ENOENT true :=
  lookup_two_outcomes [("/d/".toList, ["g".toList])] ("/d/f".toList)
    ["g".toList] (by decide) rfl

/-- C9: lookup_file is read-only — threading the filesystem through each
of its system calls (opendir, the readdir loop, closedir) returns the
filesystem unchanged, agreeing with the pure lookup on the result, and
every directory's entry list is the same before and after. -/
theorem lookup_readonly (fs : FS) (p : Str) :
    (lookup_file_st fs p).2 = fs ∧
    (lookup_file_st fs p).1 = lookup_file fs p ∧
    ∀ d, findDir (lookup_file_st fs p).2 d = findDir fs d := by
  rw [lookup_file_st_eq]
  exact ⟨rfl, rfl, fun d => rfl⟩

/-- C10: main uses argv[1] without checking argc: with at least one
argument the run is well-defined on that argument (the rest are
ignored), while with zero arguments the NULL argv[1] is handed to
lookup_file and dereferenced — a crash, so argc >= 2 is a necessary
safety precondition. -/
theorem argv_precondition (env : Env) (fs : FS) :
    (∀ p rest, main_entry env fs (p :: rest) = run_main env fs p) ∧
    (main_entry env fs []).exit = .segv ∧
    (main_entry env fs []).fs = fs :=
  ⟨fun _ _ => rfl, rfl, rfl⟩

end S3Test
